import Mathlib

/-
Verification of the plan-generator repository: the placement engine in
generate_plan.py and the checker in validate_plan.py, shallowly embedded
over exact rational arithmetic.  Python floats are modelled as rationals:
every constant of the program (grid 0.25, tolerances 1e-6 / 1e-9 / 0.1,
booth shapes in quarter units) is an exact rational, and all coordinate
arithmetic performed by the program on these values is exact in binary
floating point as well, so the rational model agrees with the float run.
Decimal constants are written as fractions (22.5 = 45/2 and so on).
Python exceptions are modelled with Except String; raising is .error.
-/

namespace Plan

section

attribute [local semireducible] Rat.add Rat.sub Rat.mul Rat.inv

/-! ## Geometry kernel (generate_plan.py lines 18-70) -/

/-- Grid resolution, 0.25 in the source. -/
def GRID : ℚ := 1/4

/-- Search step along corridor edges, 1.0 in the source. -/
def STEP : ℚ := 1

/-- The Python built-in round: nearest integer, ties to even
(banker rounding), as used by snap. -/
def pyRound (q : ℚ) : ℤ :=
  let f := Rat.floor q
  let r := q - f
  if r < 1/2 then f
  else if 1/2 < r then f + 1
  else if f % 2 = 0 then f else f + 1

/-- snap(v) = round(v / GRID) * GRID. -/
def snap (v : ℚ) : ℚ := (pyRound (v / GRID) : ℤ) * GRID

/-- Rectangle record: x, y, w, h plus label and zone tags. -/
structure Rect where
  x : ℚ
  y : ℚ
  w : ℚ
  h : ℚ
  label : String := ""
  zone : String := ""
  deriving DecidableEq

/-- Rect.copy with label and zone overridden, the only form the
allocator uses. -/
def Rect.copy (r : Rect) (label zone : String) : Rect :=
  { r with label := label, zone := zone }

/-- rects_overlap from the source: not (separated on x or on y). -/
def rects_overlap (r1 r2 : Rect) : Bool :=
  !(decide (r1.x + r1.w ≤ r2.x) || decide (r2.x + r2.w ≤ r1.x) ||
    decide (r1.y + r1.h ≤ r2.y) || decide (r2.y + r2.h ≤ r1.y))

/-- math.isclose with abs_tol = 1e-6 and the default rel_tol = 1e-9:
abs(a-b) <= max(rel_tol * max(abs a, abs b), abs_tol). -/
def isclose (a b : ℚ) : Bool :=
  decide (|a - b| ≤ max ((1/1000000000) * max |a| |b|) (1/1000000))

/-- touches_corridor from the source: for some corridor c, either a
left/right edge-line coincidence with overlapping y spans, or a
top/bottom edge-line coincidence with overlapping x spans. -/
def touches_corridor (r : Rect) (corridors : List Rect) : Bool :=
  corridors.any fun c =>
    ((isclose (r.x + r.w) c.x || isclose (c.x + c.w) r.x) &&
      !(decide (r.y ≥ c.y + c.h) || decide (r.y + r.h ≤ c.y))) ||
    ((isclose (r.y + r.h) c.y || isclose (c.y + c.h) r.y) &&
      !(decide (r.x ≥ c.x + c.w) || decide (r.x + r.w ≤ c.x)))

/-- Zone bounds record, the x0/x1/y0/y1 dict of the source. -/
structure ZoneB where
  x0 : ℚ
  x1 : ℚ
  y0 : ℚ
  y1 : ℚ
  deriving DecidableEq

/-- inside_zone from the source, with the 1e-6 tolerance on each side. -/
def inside_zone (r : Rect) (zb : ZoneB) : Bool :=
  decide (r.x ≥ zb.x0 - 1/1000000) &&
  decide (r.x + r.w ≤ zb.x1 + 1/1000000) &&
  decide (r.y ≥ zb.y0 - 1/1000000) &&
  decide (r.y + r.h ≤ zb.y1 + 1/1000000)

/-! ## Layout model (generate_plan.py lines 72-114) -/

def ZONE_A : ZoneB := { x0 := 0, x1 := 48, y0 := 7, y1 := 33 }

def ZONE_B : ZoneB := { x0 := 52, x1 := 80, y0 := 7, y1 := 33 }

/-- The zone-bounds lookup both generators use:
ZONE_A if zone == "A" else ZONE_B. -/
def zoneBoundsOf (zone : String) : ZoneB :=
  if zone = "A" then ZONE_A else ZONE_B

def MAIN_CORRIDORS : List Rect :=
  [ { x := 48, y := 0, w := 4, h := 40, label := "main_vertical" },
    { x := 0, y := 33, w := 80, h := 4, label := "main_upper" },
    { x := 0, y := 3, w := 80, h := 4, label := "main_lower" } ]

def SECONDARY_CORRIDORS : List Rect :=
  [ { x := 45/2, y := 7, w := 3, h := 26, label := "spur_A" },
    { x := 125/2, y := 7, w := 3, h := 26, label := "spur_B" } ]

def TERTIARY_CORRIDORS : List Rect :=
  [ { x := 0, y := 19, w := 80, h := 3, label := "tertiary_mid" } ]

def CORRIDORS : List Rect :=
  MAIN_CORRIDORS ++ SECONDARY_CORRIDORS ++ TERTIARY_CORRIDORS

/-- INVENTORY of the generator, as an insertion-ordered (area, count)
association list mirroring the Python dict. -/
def INVENTORY : List (ℕ × ℕ) :=
  [(200, 2), (100, 3), (90, 2), (80, 3), (60, 4), (48, 5), (40, 4),
   (30, 5), (20, 5), (18, 5), (15, 4), (12, 6)]

/-- SHAPES: allowed (w, h) options per area.  A total function; areas
outside the catalog give [], where the Python dict lookup would raise
KeyError (no claim quantifies over such areas).  4.5 = 9/2, 3.75 = 15/4. -/
def SHAPES : ℕ → List (ℚ × ℚ)
  | 200 => [(20, 10), (10, 20)]
  | 100 => [(10, 10)]
  | 90 => [(9, 10), (10, 9)]
  | 80 => [(8, 10), (10, 8)]
  | 60 => [(10, 6), (6, 10)]
  | 48 => [(8, 6), (6, 8)]
  | 40 => [(8, 5), (5, 8)]
  | 30 => [(10, 3), (6, 5), (5, 6)]
  | 20 => [(5, 4), (4, 5)]
  | 18 => [(6, 3), (9/2, 4), (4, 9/2)]
  | 15 => [(5, 3), (15/4, 4), (4, 15/4)]
  | 12 => [(4, 3), (3, 4)]
  | _ => []

/-! ## Outer-strip placer (generate_plan.py lines 132-179) -/

/-- Python dict get with default 0, on an association list. -/
def dictGet (d : List (ℕ × ℕ)) (k : ℕ) : ℕ :=
  match d.find? (fun p => p.1 == k) with
  | some p => p.2
  | none => 0

/-- Python dict item assignment on an association list: overwrite in
place if the key exists, append otherwise. -/
def dictSet (d : List (ℕ × ℕ)) (k v : ℕ) : List (ℕ × ℕ) :=
  if d.any (fun p => p.1 == k) then
    d.map (fun p => if p.1 == k then (k, v) else p)
  else d ++ [(k, v)]

/-- The rect the add closure of layout_outer_strips builds: snapped
coordinates and the label zone + "_" + booth id. -/
def outerRect (bid : ℕ) (x y w h : ℚ) (zone : String) : Rect :=
  { x := snap x, y := snap y, w := snap w, h := snap h,
    label := zone ++ "_" ++ toString bid, zone := zone }

/-- The add closure of layout_outer_strips: build the snapped rect,
raise on overlap with blocking + placed, raise on missing main-corridor
contact, accept otherwise.  (The Python error text interpolates
repr(r); only the label is reproduced here, the message text carries no
program logic.) -/
def addBooth (blocking placed : List Rect) (bid : ℕ) (x y w h : ℚ)
    (zone : String) : Except String Rect :=
  let r : Rect := outerRect bid x y w h zone
  if (blocking ++ placed).any (fun b => rects_overlap r b) then
    Except.error ("Overlap placing " ++ r.label)
  else if !(touches_corridor r MAIN_CORRIDORS) then
    Except.error ("No corridor contact for outer " ++ r.label)
  else Except.ok r

/-- The hand-ordered perimeter sequence of layout_outer_strips: per
strip its zone tag, fixed y, cursor start x, and the (area, width) run;
every strip booth has height 3 and the cursor advances by each width,
exactly as the unrolled source loops do. -/
def stripRuns : List (String × ℚ × ℚ × List (ℕ × ℚ)) :=
  [ ("C", 37, 0, [(30, 10), (30, 10), (30, 10), (18, 6), (18, 6), (18, 6)]),
    ("D", 37, 52, [(30, 10), (15, 5), (15, 5), (12, 4), (12, 4)]),
    ("E", 0, 0, [(30, 10), (18, 6), (18, 6), (15, 5), (15, 5), (12, 4), (12, 4), (12, 4)]),
    ("F", 0, 52, [(12, 4)]) ]

/-- One strip: thread the x cursor, placed list, used counts and booth
id through the run, stopping at the first raised error. -/
def layoutRun (blocking : List Rect) (zone : String) (y : ℚ) :
    List (ℕ × ℚ) → ℚ → List Rect → List (ℕ × ℕ) → ℕ →
    Except String (List Rect × List (ℕ × ℕ) × ℕ)
  | [], _, placed, used, bid => Except.ok (placed, used, bid)
  | (area, w) :: rest, x, placed, used, bid =>
    match addBooth blocking placed bid x y w 3 zone with
    | Except.error e => Except.error e
    | Except.ok r =>
      layoutRun blocking zone y rest (x + w) (placed ++ [r])
        (dictSet used area (dictGet used area + 1)) (bid + 1)

/-- All four strips in order. -/
def layoutRuns (blocking : List Rect) :
    List (String × ℚ × ℚ × List (ℕ × ℚ)) → List Rect → List (ℕ × ℕ) → ℕ →
    Except String (List Rect × List (ℕ × ℕ))
  | [], placed, used, _ => Except.ok (placed, used)
  | (zone, y, x0, items) :: rest, placed, used, bid =>
    match layoutRun blocking zone y items x0 placed used bid with
    | Except.error e => Except.error e
    | Except.ok (placed1, used1, bid1) => layoutRuns blocking rest placed1 used1 bid1

/-- layout_outer_strips: place the fixed perimeter sequence, starting
from used = {30: 0, 18: 0, 15: 0, 12: 0} and booth id 1. -/
def layout_outer_strips (blocking : List Rect) :
    Except String (List Rect × List (ℕ × ℕ)) :=
  layoutRuns blocking stripRuns [] [(30, 0), (18, 0), (15, 0), (12, 0)] 1

/-- The placed list of layout_outer_strips CORRIDORS, the call made by
main (blocking = corridors). -/
def outerPlaced : List Rect :=
  match layout_outer_strips CORRIDORS with
  | Except.ok (ps, _) => ps
  | Except.error _ => []

/-- The per-size consumption of layout_outer_strips CORRIDORS. -/
def outerUsed : List (ℕ × ℕ) :=
  match layout_outer_strips CORRIDORS with
  | Except.ok (_, used) => used
  | Except.error _ => []

/-! ## Candidate generator (generate_plan.py lines 181-261) -/

/-- A corridor edge usable from inside a zone, the dict of
corridor_edges_for_zone: a vertical edge holds its side tag, x line and
y span, a horizontal edge its side tag, y line and x span. -/
inductive Edge where
  | vert (side : String) (x y0 y1 : ℚ)
  | horiz (side : String) (y x0 x1 : ℚ)
  deriving DecidableEq

/-- corridor_edges_for_zone from the source: dispatch on each corridor
label; the main vertical exposes one side per zone, spurs both sides in
their own zone, the upper/lower mains their zone-facing side, the
tertiary corridor both sides. -/
def corridor_edges_for_zone (zone : String) : List Edge :=
  let zb := zoneBoundsOf zone
  CORRIDORS.flatMap fun c =>
    let x0 := c.x
    let x1 := c.x + c.w
    let y0 := c.y
    let y1 := c.y + c.h
    if c.label = "main_vertical" then
      if zone = "A" then [Edge.vert "right" x0 zb.y0 zb.y1]
      else [Edge.vert "left" x1 zb.y0 zb.y1]
    else if c.label = "spur_A" then
      if zone = "A" then
        [Edge.vert "right" x0 (max y0 zb.y0) (min y1 zb.y1),
         Edge.vert "left" x1 (max y0 zb.y0) (min y1 zb.y1)]
      else []
    else if c.label = "spur_B" then
      if zone = "B" then
        [Edge.vert "right" x0 (max y0 zb.y0) (min y1 zb.y1),
         Edge.vert "left" x1 (max y0 zb.y0) (min y1 zb.y1)]
      else []
    else if c.label = "main_upper" then
      [Edge.horiz "top" y0 (max x0 zb.x0) (min x1 zb.x1)]
    else if c.label = "main_lower" then
      [Edge.horiz "bottom" y1 (max x0 zb.x0) (min x1 zb.x1)]
    else if c.label = "tertiary_mid" then
      [Edge.horiz "top" y0 (max x0 zb.x0) (min x1 zb.x1),
       Edge.horiz "bottom" y1 (max x0 zb.x0) (min x1 zb.x1)]
    else []

/-- The slide loop `pos = start; while pos <= fin + 1e-6: ...; pos += STEP`
with STEP = 1: the positions are start + k for k = 0 .. floor(fin + 1e-6 - start). -/
def slidePositions (start fin : ℚ) : List ℚ :=
  let n : ℤ := Rat.floor (fin + 1/1000000 - start)
  if n < 0 then []
  else (List.range (n.toNat + 1)).map (fun k => start + (k : ℚ) * STEP)

/-- Candidates of one shape along one edge, keeping those inside the
zone bounds, exactly as the two while loops of generate_candidates do. -/
def edgeCandidates (zb : ZoneB) (zone : String) (w h : ℚ) : Edge → List Rect
  | Edge.vert side ex y0 y1 =>
    let x := if side = "right" then ex - w else ex
    (slidePositions y0 (y1 - h)).filterMap fun y =>
      let r : Rect := { x := snap x, y := snap y, w := w, h := h, zone := zone }
      if inside_zone r zb then some r else none
  | Edge.horiz side ey x0 x1 =>
    let y := if side = "top" then ey - h else ey
    (slidePositions x0 (x1 - w)).filterMap fun x =>
      let r : Rect := { x := snap x, y := snap y, w := w, h := h, zone := zone }
      if inside_zone r zb then some r else none

/-- The raw candidate list before deduplication, sorting and capping. -/
def rawCandidates (area : ℕ) (zone : String) : List Rect :=
  let zb := zoneBoundsOf zone
  let edges := corridor_edges_for_zone zone
  (SHAPES area).flatMap fun s =>
    let w := snap s.1
    let h := snap s.2
    if max w h / min w h > 40001/10000 then []
    else edges.flatMap (edgeCandidates zb zone w h)

/-- The dedup key (x, y, w, h). -/
def rectKey (r : Rect) : ℚ × ℚ × ℚ × ℚ := (r.x, r.y, r.w, r.h)

/-- Deduplication by key.  The Python dict keeps the first position of
each key and overwrites its value with the last occurrence; here every
occurrence of a key is the identical record (same zone tag, empty
label), so keeping the first occurrence is the dict behaviour. -/
def dedupByKey : List Rect → List (ℚ × ℚ × ℚ × ℚ) → List Rect
  | [], _ => []
  | r :: rest, seen =>
    if rectKey r ∈ seen then dedupByKey rest seen
    else r :: dedupByKey rest (rectKey r :: seen)

/-- Squared distance of the rect center to the reference point (50, 40),
the sort key of generate_candidates. -/
def dist (r : Rect) : ℚ :=
  (r.x + r.w / 2 - 50) ^ 2 + (r.y + r.h / 2 - 40) ^ 2

/-- Stable insertion of a rect into a list sorted by dist: the new rect
goes before every element of equal key that was later in the input. -/
def insertByDist (r : Rect) : List Rect → List Rect
  | [] => [r]
  | a :: rest =>
    if dist r ≤ dist a then r :: a :: rest else a :: insertByDist r rest

/-- Stable sort by dist.  Python sorted is a stable sort by the key, and
a stable sort by a key is unique, so this insertion sort returns exactly
the list sorted(...) returns. -/
def sortByDist : List Rect → List Rect
  | [] => []
  | r :: rest => insertByDist r (sortByDist rest)

/-- generate_candidates: shapes × edges slide, dedup, sort by distance
to (50, 40), cap at 400. -/
def generate_candidates (area : ℕ) (zone : String) : List Rect :=
  (sortByDist (dedupByKey (rawCandidates area zone) [])).take 400

/-! ## Greedy allocator (generate_plan.py lines 263-282) -/

/-- The acceptance test of greedy_place_with_skips: no overlap with any
already-placed or blocking rect, and corridor contact against the full
corridor set. -/
def acceptable (placed blocking : List Rect) (cand : Rect) : Bool :=
  !((placed ++ blocking).any (fun b => rects_overlap cand b)) &&
  touches_corridor cand CORRIDORS

/-- The sequential label a zone assigns on acceptance:
zone + "_" + (number already placed in that zone + 1). -/
def zoneLabel (placed : List Rect) (zone : String) : String :=
  zone ++ "_" ++ toString ((placed.filter (fun p => p.zone == zone)).length + 1)

/-- Scan one zone candidate list in priority order; the first acceptable
candidate is committed as a labelled copy. -/
def tryZone (placed blocking : List Rect) (cands : List Rect)
    (zone : String) : Option Rect :=
  match cands.find? (acceptable placed blocking) with
  | some cand => some (cand.copy (zoneLabel placed zone) zone)
  | none => none

/-- One inventory item: zone A first, then zone B. -/
def tryPlaceItem (cache : ℕ × String → List Rect) (blocking placed : List Rect)
    (area : ℕ) : Option Rect :=
  match tryZone placed blocking (cache (area, "A")) "A" with
  | some r => some r
  | none => tryZone placed blocking (cache (area, "B")) "B"

/-- The allocator loop with its placed/skipped accumulators. -/
def greedyGo (cache : ℕ × String → List Rect) (blocking : List Rect) :
    List ℕ → List Rect → List ℕ → List Rect × List ℕ
  | [], placed, skipped => (placed, skipped)
  | area :: rest, placed, skipped =>
    match tryPlaceItem cache blocking placed area with
    | some r => greedyGo cache blocking rest (placed ++ [r]) skipped
    | none => greedyGo cache blocking rest placed (skipped ++ [area])

/-- greedy_place_with_skips: the candidate cache is modelled as a total
function on (area, zone); main populates it for every area of the
placement order. -/
def greedy_place_with_skips (place_order : List ℕ)
    (candidates_cache : ℕ × String → List Rect) (blocking : List Rect) :
    List Rect × List ℕ :=
  greedyGo candidates_cache blocking place_order [] []

/-- The candidate-cache construction loop of main, reduced to its
raising behaviour: for each distinct area, a RuntimeError is raised as
soon as zone A or zone B yields an empty candidate list. -/
def main_candidate_check : List ℕ → Except String Unit
  | [] => Except.ok ()
  | a :: rest =>
    if generate_candidates a "A" = [] then
      Except.error "No candidates in zone A"
    else if generate_candidates a "B" = [] then
      Except.error "No candidates in zone B"
    else main_candidate_check rest

/-! ## Validator (validate_plan.py) -/

/-- A rectangle parsed from the SVG: x, y, width, height attributes. -/
structure PRect where
  x : ℚ
  y : ℚ
  w : ℚ
  h : ℚ
  deriving DecidableEq

/-- The hall-boundary filter of parse_svg_rects:
abs(w - 80) < 0.1 and abs(h - 40) < 0.1. -/
def hall_filter (r : PRect) : Bool :=
  decide (|r.w - 80| < 1/10) && decide (|r.h - 40| < 1/10)

/-- The corridor heuristic of parse_svg_rects:
(abs(w - 4) < 0.1 and h > 10) or (abs(h - 4) < 0.1 and w > 10). -/
def corridor_filter (r : PRect) : Bool :=
  (decide (|r.w - 4| < 1/10) && decide (r.h > 10)) ||
  (decide (|r.h - 4| < 1/10) && decide (r.w > 10))

/-- parse_svg_rects on an already-decoded rect list: drop the hall
boundary and the corridor-shaped rects, keep the rest as booths. -/
def parse_svg_rects (rs : List PRect) : List PRect :=
  rs.filter (fun r => !(hall_filter r) && !(corridor_filter r))

/-- The validation findings, one constructor per error message shape of
validate_plan (message text carries no program logic). -/
inductive VErr where
  | shortSide (x y : ℚ)
  | aspect (x y : ℚ)
  | topDepth (x y : ℚ)
  | bottomDepth (x y : ℚ)
  | inventoryMismatch (size expected found : ℕ)
  deriving DecidableEq

/-- The per-booth checks of validate_plan, in source order: shorter side
below 3 - 0.01; aspect ratio above 4.01; top strip (y >= 37) depth above
3.01; bottom strip (y + h <= 3) depth above 3.01. -/
def boothErrors (b : PRect) : List VErr :=
  let longer := max b.w b.h
  let shorter := min b.w b.h
  (if shorter < 3 - 1/100 then [VErr.shortSide b.x b.y] else []) ++
  (if shorter > 0 ∧ longer / shorter > 401/100 then [VErr.aspect b.x b.y] else []) ++
  (if b.y ≥ 37 ∧ b.h > 301/100 then [VErr.topDepth b.x b.y] else []) ++
  (if b.y + b.h ≤ 3 ∧ b.h > 301/100 then [VErr.bottomDepth b.x b.y] else [])

/-- required_inventory of validate_plan, its own target table. -/
def required_inventory : List (ℕ × ℕ) :=
  [(200, 1), (100, 2), (90, 2), (80, 2), (60, 4), (48, 4), (40, 4),
   (30, 5), (20, 5), (18, 5), (15, 4), (12, 6)]

/-- found_inventory.get(size, 0): how many parsed booths have rounded
area equal to the given size. -/
def countFoundArea (booths : List PRect) (s : ℕ) : ℕ :=
  (booths.filter (fun b => pyRound (b.w * b.h) == (s : ℤ))).length

/-- The inventory-check pass: one mismatch finding per required size
whose found count differs. -/
def inventoryErrors (booths : List PRect) : List VErr :=
  required_inventory.filterMap fun p =>
    if countFoundArea booths p.1 ≠ p.2 then
      some (VErr.inventoryMismatch p.1 p.2 (countFoundArea booths p.1))
    else none

/-- validate_plan after parsing: accumulate per-booth findings then
inventory findings; the returned flag is true iff no finding. -/
def validate_core (booths : List PRect) : Bool :=
  ((booths.flatMap boothErrors) ++ inventoryErrors booths).isEmpty

/-! ## Definitions written from the spec wording, for comparison -/

/-- A point interior to both rects, the spec reading of overlap:
the open interiors intersect. -/
def open_interiors_intersect (r1 r2 : Rect) : Prop :=
  ∃ px py : ℚ,
    (r1.x < px ∧ px < r1.x + r1.w ∧ r1.y < py ∧ py < r1.y + r1.h) ∧
    (r2.x < px ∧ px < r2.x + r2.w ∧ r2.y < py ∧ py < r2.y + r2.h)

/-- The claim C3 reading of corridor contact, modelled from its words:
an entire side of r coincides (within the 1e-6 tolerance) with a
corridor edge, so the full span of that side lies along the corridor. -/
def full_side_contact (r : Rect) (corridors : List Rect) : Prop :=
  ∃ c ∈ corridors,
    ((isclose (r.x + r.w) c.x = true ∨ isclose (c.x + c.w) r.x = true) ∧
      c.y - 1/1000000 ≤ r.y ∧ r.y + r.h ≤ c.y + c.h + 1/1000000) ∨
    ((isclose (r.y + r.h) c.y = true ∨ isclose (c.y + c.h) r.y = true) ∧
      c.x - 1/1000000 ≤ r.x ∧ r.x + r.w ≤ c.x + c.w + 1/1000000)

instance (r : Rect) (cs : List Rect) : Decidable (full_side_contact r cs) := by
  unfold full_side_contact
  infer_instance

/-! ## Counting helpers used by the conservation statements -/

/-- Number of placed rects whose exact area w * h equals the size. -/
def countArea (rs : List Rect) (s : ℕ) : ℕ :=
  (rs.filter (fun r => decide (r.w * r.h = (s : ℚ)))).length

/-- Number of occurrences of a size in an integer list. -/
def countNat (l : List ℕ) (s : ℕ) : ℕ :=
  (l.filter (fun a => decide (a = s))).length

/-! ## Concrete instances used by witnesses and counterexamples -/

/-- A cache with no candidates at all. -/
def emptyCache : ℕ × String → List Rect := fun _ => []

/-- A cache with a non-empty entry for every (area, zone) pair, whose
(12, A) entry is a 1 by 1 rect: a legal cache shape for the allocator,
but that candidate has area 1, not 12. -/
def areaMismatchCache : ℕ × String → List Rect := fun p =>
  if p = (12, "A") then [{ x := 47, y := 0, w := 1, h := 1 }]
  else [{ x := 52, y := 7, w := 4, h := 3 }]

/-- A one-candidate cache used to exercise the allocator invariants on
a run that places something: a 4 by 3 rect against the main vertical
corridor. -/
def oneCandCache : ℕ × String → List Rect := fun p =>
  if p = (12, "A") then [{ x := 44, y := 7, w := 4, h := 3 }] else []

/-- A rect whose right edge lies on the spur_A corridor edge line but
whose y span 30..40 extends past the corridor top at 33: partial edge
contact. -/
def partialContactRect : Rect := { x := 39/2, y := 30, w := 3, h := 10 }

/-- A booth multiset realizing the generator inventory counts by area:
for each (size, count) of INVENTORY, count rects of dimensions size x 1. -/
def generatorCountBooths : List PRect :=
  INVENTORY.flatMap fun p => List.replicate p.2 { x := 0, y := 0, w := (p.1 : ℚ), h := 1 }

/-- The spur corridors as they appear among the parsed SVG rects
(the render flip maps y = 7, h = 26 back to y = 7). -/
def spurAParsed : PRect := { x := 45/2, y := 7, w := 3, h := 26 }

def spurBParsed : PRect := { x := 125/2, y := 7, w := 3, h := 26 }

/-- The tertiary corridor as parsed from the SVG (y flipped to
40 - 19 - 3 = 18). -/
def tertiaryParsed : PRect := { x := 0, y := 18, w := 80, h := 3 }

/-! ## Helper lemmas -/

theorem rects_overlap_true_iff (r1 r2 : Rect) :
    rects_overlap r1 r2 = true ↔
      r2.x < r1.x + r1.w ∧ r1.x < r2.x + r2.w ∧
      r2.y < r1.y + r1.h ∧ r1.y < r2.y + r2.h := by
  simp only [rects_overlap, Bool.not_eq_true', Bool.or_eq_false_iff,
    decide_eq_false_iff_not, not_le]
  tauto

theorem rects_overlap_false_iff (r1 r2 : Rect) :
    rects_overlap r1 r2 = false ↔
      (r1.x + r1.w ≤ r2.x ∨ r2.x + r2.w ≤ r1.x ∨
       r1.y + r1.h ≤ r2.y ∨ r2.y + r2.h ≤ r1.y) := by
  simp only [rects_overlap, Bool.not_eq_false', Bool.or_eq_true,
    decide_eq_true_eq]
  tauto

theorem rects_overlap_comm (r1 r2 : Rect) :
    rects_overlap r1 r2 = rects_overlap r2 r1 := by
  cases h : rects_overlap r2 r1 with
  | true =>
    rw [rects_overlap_true_iff] at h ⊢
    tauto
  | false =>
    rw [rects_overlap_false_iff] at h ⊢
    tauto

/-! ## C7: rects_overlap characterization -/

/-- Claim C7, counterexample: the claim asserts rects_overlap(r, r) is
false for every rectangle, but the unit square overlaps itself. -/
theorem rects_overlap_refl_cex :
    rects_overlap { x := 0, y := 0, w := 1, h := 1 }
      { x := 0, y := 0, w := 1, h := 1 } = true := by decide

/-- Claim C7 (amended): for rectangles of positive width and height,
rects_overlap is true iff the open interiors intersect; the relation is
symmetric for all rectangles; and self overlap is true exactly for
rectangles of positive width and height (so reflexive-false holds only
for degenerate rectangles, which the program rejects upstream). -/
theorem rects_overlap_characterization :
    (∀ r1 r2 : Rect, 0 < r1.w → 0 < r1.h → 0 < r2.w → 0 < r2.h →
      (rects_overlap r1 r2 = true ↔ open_interiors_intersect r1 r2)) ∧
    (∀ r1 r2 : Rect, rects_overlap r1 r2 = rects_overlap r2 r1) ∧
    (∀ r : Rect, rects_overlap r r = true ↔ 0 < r.w ∧ 0 < r.h) := by
  refine ⟨fun r1 r2 hw1 hh1 hw2 hh2 => ?_, rects_overlap_comm, fun r => ?_⟩
  · rw [rects_overlap_true_iff]
    constructor
    · rintro ⟨hx1, hx2, hy1, hy2⟩
      have hxa : max r1.x r2.x < min (r1.x + r1.w) (r2.x + r2.w) := by
        rcases max_cases r1.x r2.x with ⟨hm, -⟩ | ⟨hm, -⟩ <;>
          rcases min_cases (r1.x + r1.w) (r2.x + r2.w) with ⟨hn, -⟩ | ⟨hn, -⟩ <;>
          rw [hm, hn] <;> linarith
      have hya : max r1.y r2.y < min (r1.y + r1.h) (r2.y + r2.h) := by
        rcases max_cases r1.y r2.y with ⟨hm, -⟩ | ⟨hm, -⟩ <;>
          rcases min_cases (r1.y + r1.h) (r2.y + r2.h) with ⟨hn, -⟩ | ⟨hn, -⟩ <;>
          rw [hm, hn] <;> linarith
      have hx1a : r1.x ≤ max r1.x r2.x := le_max_left _ _
      have hx2a : r2.x ≤ max r1.x r2.x := le_max_right _ _
      have hx1b : min (r1.x + r1.w) (r2.x + r2.w) ≤ r1.x + r1.w := min_le_left _ _
      have hx2b : min (r1.x + r1.w) (r2.x + r2.w) ≤ r2.x + r2.w := min_le_right _ _
      have hy1a : r1.y ≤ max r1.y r2.y := le_max_left _ _
      have hy2a : r2.y ≤ max r1.y r2.y := le_max_right _ _
      have hy1b : min (r1.y + r1.h) (r2.y + r2.h) ≤ r1.y + r1.h := min_le_left _ _
      have hy2b : min (r1.y + r1.h) (r2.y + r2.h) ≤ r2.y + r2.h := min_le_right _ _
      refine ⟨(max r1.x r2.x + min (r1.x + r1.w) (r2.x + r2.w)) / 2,
              (max r1.y r2.y + min (r1.y + r1.h) (r2.y + r2.h)) / 2,
              ⟨?_, ?_, ?_, ?_⟩, ?_, ?_, ?_, ?_⟩ <;> linarith
    · rintro ⟨px, py, ⟨h1, h2, h3, h4⟩, h5, h6, h7, h8⟩
      exact ⟨by linarith, by linarith, by linarith, by linarith⟩
  · rw [rects_overlap_true_iff]
    constructor
    · rintro ⟨h1, -, h2, -⟩
      exact ⟨by linarith, by linarith⟩
    · rintro ⟨h1, h2⟩
      exact ⟨by linarith, by linarith, by linarith, by linarith⟩

/-- Witness for C7: applying the characterization at two concrete unit
squares produces an interior intersection point. -/
theorem rects_overlap_characterization_witness :
    (0 : ℚ) < 2 ∧
    open_interiors_intersect { x := 0, y := 0, w := 2, h := 2 }
      { x := 1, y := 1, w := 2, h := 2 } :=
  ⟨by norm_num,
    (rects_overlap_characterization.1
      { x := 0, y := 0, w := 2, h := 2 } { x := 1, y := 1, w := 2, h := 2 }
      (by norm_num) (by norm_num) (by norm_num) (by norm_num)).mp (by decide)⟩

/-! ## C8: snap -/

theorem ratFloor_eq_floor (q : ℚ) : Rat.floor q = ⌊q⌋ :=
  (Rat.floor_def' q).trans Rat.floor_def.symm

theorem pyRound_sub_abs_le (q : ℚ) : |(pyRound q : ℚ) - q| ≤ 1/2 := by
  have h1 : ((Rat.floor q : ℤ) : ℚ) ≤ q := by
    rw [ratFloor_eq_floor]
    exact_mod_cast Int.floor_le q
  have h2 : q < ((Rat.floor q : ℤ) : ℚ) + 1 := by
    rw [ratFloor_eq_floor]
    exact_mod_cast Int.lt_floor_add_one q
  simp only [pyRound]
  split_ifs with hlt hgt heven <;>
    (rw [abs_le]; constructor <;> push_cast <;> linarith)

/-- Claim C8: snap(v) is an exact multiple of the grid resolution and is
a nearest such multiple, within 0.125 of the input; as a pure function
of v it is deterministic and side-effect free by construction. -/
theorem snap_nearest_grid_multiple :
    ∀ v : ℚ, (∃ k : ℤ, snap v = (k : ℚ) * GRID) ∧ |snap v - v| ≤ 1/8 := by
  intro v
  refine ⟨⟨pyRound (v / GRID), rfl⟩, ?_⟩
  have hv : v / GRID * GRID = v := div_mul_cancel₀ v (by norm_num [GRID])
  have hd : snap v - v = ((pyRound (v / GRID) : ℚ) - v / GRID) * GRID := by
    rw [snap, sub_mul, hv]
  have hb := pyRound_sub_abs_le (v / GRID)
  have hG : |GRID| = 1/4 := by norm_num [GRID]
  calc |snap v - v| = |(pyRound (v / GRID) : ℚ) - v / GRID| * |GRID| := by
        rw [hd, abs_mul]
    _ ≤ (1/2) * (1/4) := by
        rw [hG]
        exact mul_le_mul_of_nonneg_right hb (by norm_num)
    _ = 1/8 := by norm_num

/-! ## C3: touches_corridor characterization -/

/-- Claim C3, counterexample: a rect whose right edge lies on the spur_A
edge line with y span 30..40, overlapping the corridor span 7..33 only
partially, is accepted by touches_corridor although no entire side of it
coincides with a corridor edge. -/
theorem touches_corridor_partial_cex :
    touches_corridor partialContactRect CORRIDORS = true ∧
    ¬ full_side_contact partialContactRect CORRIDORS := by decide

/-- Claim C3 (amended): touches_corridor r corridors is true iff for
some corridor, an edge line of r coincides within tolerance with the
facing corridor edge line and the perpendicular spans overlap openly;
partial edge contact counts, a full contiguous side is not required. -/
theorem touches_corridor_characterization (r : Rect) (cs : List Rect) :
    touches_corridor r cs = true ↔
      ∃ c ∈ cs,
        ((isclose (r.x + r.w) c.x = true ∨ isclose (c.x + c.w) r.x = true) ∧
          r.y < c.y + c.h ∧ c.y < r.y + r.h) ∨
        ((isclose (r.y + r.h) c.y = true ∨ isclose (c.y + c.h) r.y = true) ∧
          r.x < c.x + c.w ∧ c.x < r.x + r.w) := by
  simp only [touches_corridor, List.any_eq_true, Bool.or_eq_true,
    Bool.and_eq_true, Bool.not_eq_true', Bool.or_eq_false_iff,
    decide_eq_false_iff_not, not_le, ge_iff_le]

/-- Witness for C3: the characterization applied at the partial-contact
rect against the full corridor list. -/
theorem touches_corridor_characterization_witness :
    touches_corridor partialContactRect CORRIDORS = true :=
  (touches_corridor_characterization partialContactRect CORRIDORS).mpr
    ⟨{ x := 45/2, y := 7, w := 3, h := 26, label := "spur_A" }, by decide,
      Or.inl ⟨Or.inl (by decide), by norm_num [partialContactRect], by norm_num [partialContactRect]⟩⟩

/-! ## C4: the outer-strip pass -/

/-- Claim C4: with blocking equal to the corridor list, the outer-strip
pass raises nothing and returns 20 rects consuming 5 of 30, 5 of 18,
4 of 15 and 6 of 12; every returned rect touches a main corridor,
overlaps no corridor and overlaps no other returned rect. -/
theorem outer_strips_layout_ok :
    layout_outer_strips CORRIDORS = Except.ok (outerPlaced, outerUsed) ∧
    outerPlaced.length = 20 ∧
    outerUsed = [(30, 5), (18, 5), (15, 4), (12, 6)] ∧
    outerPlaced.all (fun p => touches_corridor p MAIN_CORRIDORS) = true ∧
    outerPlaced.all (fun p => CORRIDORS.all (fun c => !(rects_overlap p c))) = true ∧
    outerPlaced.Pairwise (fun a b => rects_overlap a b = false) :=
  ⟨rfl, by decide, by decide, by decide, by decide, by decide⟩

/-! ## C5: generate_candidates machinery -/

theorem mem_insertByDist {b r : Rect} {l : List Rect} :
    b ∈ insertByDist r l ↔ b = r ∨ b ∈ l := by
  induction l with
  | nil => simp [insertByDist]
  | cons a rest ih =>
    simp only [insertByDist]
    split
    · simp [or_comm, or_assoc, List.mem_cons]
    · simp only [List.mem_cons, ih]
      tauto

theorem insertByDist_pairwise {r : Rect} {l : List Rect}
    (h : l.Pairwise (fun a b => dist a ≤ dist b)) :
    (insertByDist r l).Pairwise (fun a b => dist a ≤ dist b) := by
  induction l with
  | nil => simp [insertByDist]
  | cons a rest ih =>
    rw [List.pairwise_cons] at h
    simp only [insertByDist]
    split
    · rename_i hle
      rw [List.pairwise_cons]
      refine ⟨?_, List.pairwise_cons.mpr h⟩
      intro b hb
      rcases List.mem_cons.mp hb with rfl | hb
      · exact hle
      · exact le_trans hle (h.1 b hb)
    · rename_i hgt
      rw [List.pairwise_cons]
      refine ⟨?_, ih h.2⟩
      intro b hb
      rcases mem_insertByDist.mp hb with rfl | hb
      · exact le_of_not_le hgt
      · exact h.1 b hb

theorem insertByDist_perm (r : Rect) (l : List Rect) :
    List.Perm (insertByDist r l) (r :: l) := by
  induction l with
  | nil => rfl
  | cons a rest ih =>
    simp only [insertByDist]
    split
    · rfl
    · exact (List.Perm.cons a ih).trans (List.Perm.swap r a rest)

theorem sortByDist_pairwise (l : List Rect) :
    (sortByDist l).Pairwise (fun a b => dist a ≤ dist b) := by
  induction l with
  | nil => exact List.Pairwise.nil
  | cons r rest ih => exact insertByDist_pairwise ih

theorem sortByDist_perm (l : List Rect) : List.Perm (sortByDist l) l := by
  induction l with
  | nil => rfl
  | cons r rest ih => exact (insertByDist_perm r (sortByDist rest)).trans (ih.cons r)

theorem mem_dedupByKey {r : Rect} :
    ∀ {l : List Rect} {seen : List (ℚ × ℚ × ℚ × ℚ)},
      r ∈ dedupByKey l seen → r ∈ l ∧ rectKey r ∉ seen := by
  intro l
  induction l with
  | nil => intro seen h; simp [dedupByKey] at h
  | cons a rest ih =>
    intro seen h
    simp only [dedupByKey] at h
    split at h
    · have := ih h
      exact ⟨List.mem_cons_of_mem a this.1, this.2⟩
    · rcases List.mem_cons.mp h with rfl | h
      · rename_i hnot
        exact ⟨List.mem_cons_self r rest, hnot⟩
      · have := ih h
        refine ⟨List.mem_cons_of_mem a this.1, fun hmem => this.2 ?_⟩
        exact List.mem_cons_of_mem _ hmem

theorem dedupByKey_pairwise :
    ∀ (l : List Rect) (seen : List (ℚ × ℚ × ℚ × ℚ)),
      (dedupByKey l seen).Pairwise (fun a b => rectKey a ≠ rectKey b) := by
  intro l
  induction l with
  | nil => intro seen; exact List.Pairwise.nil
  | cons a rest ih =>
    intro seen
    simp only [dedupByKey]
    split
    · exact ih seen
    · rw [List.pairwise_cons]
      refine ⟨?_, ih _⟩
      intro b hb
      have := (mem_dedupByKey hb).2
      intro heq
      exact this (heq ▸ List.mem_cons_self _ _)

theorem mem_edgeCandidates_inside {zb : ZoneB} {zone : String} {w h : ℚ}
    {e : Edge} {r : Rect} (hr : r ∈ edgeCandidates zb zone w h e) :
    inside_zone r zb = true := by
  cases e with
  | vert side ex y0 y1 =>
    simp only [edgeCandidates, List.mem_filterMap] at hr
    obtain ⟨y, -, hy⟩ := hr
    rw [Option.ite_none_right_eq_some] at hy
    obtain ⟨hin, heq⟩ := hy
    cases heq
    exact hin
  | horiz side ey x0 x1 =>
    simp only [edgeCandidates, List.mem_filterMap] at hr
    obtain ⟨x, -, hx⟩ := hr
    rw [Option.ite_none_right_eq_some] at hx
    obtain ⟨hin, heq⟩ := hx
    cases heq
    exact hin

theorem mem_rawCandidates_inside {area : ℕ} {zone : String} {r : Rect}
    (hr : r ∈ rawCandidates area zone) :
    inside_zone r (zoneBoundsOf zone) = true := by
  simp only [rawCandidates, List.mem_flatMap] at hr
  obtain ⟨s, -, hs⟩ := hr
  split at hs
  · simp at hs
  · simp only [List.mem_flatMap] at hs
    obtain ⟨e, -, he⟩ := hs
    exact mem_edgeCandidates_inside he

/-- Claim C5: for every area and zone the candidate list has at most
400 elements, no two entries share the (x, y, w, h) key, every entry
lies inside the zone bounds, and the list is sorted by non-decreasing
squared distance of its center to the reference point (50, 40). -/
theorem generate_candidates_properties (area : ℕ) (zone : String) :
    (generate_candidates area zone).length ≤ 400 ∧
    (generate_candidates area zone).Pairwise
      (fun a b => decide (rectKey a = rectKey b) = false) ∧
    (generate_candidates area zone).all
      (fun r => inside_zone r (zoneBoundsOf zone)) = true ∧
    (generate_candidates area zone).Pairwise (fun a b => dist a ≤ dist b) := by
  have hperm := sortByDist_perm (dedupByKey (rawCandidates area zone) [])
  refine ⟨List.length_take_le _ _, ?_, ?_, ?_⟩
  · have hdk := dedupByKey_pairwise (rawCandidates area zone) []
    have hsym : ∀ {x y : Rect}, rectKey x ≠ rectKey y → rectKey y ≠ rectKey x :=
      fun h => h.symm
    have hsorted := (List.Perm.pairwise_iff hsym hperm).mpr hdk
    exact ((hsorted.sublist (List.take_sublist _ _)).imp fun h => decide_eq_false h)
  · rw [List.all_eq_true]
    intro r hr
    have hmem : r ∈ sortByDist (dedupByKey (rawCandidates area zone) []) :=
      List.take_subset _ _ hr
    have hmem2 := hperm.mem_iff.mp hmem
    exact mem_rawCandidates_inside (mem_dedupByKey hmem2).1
  · exact (sortByDist_pairwise _).sublist (List.take_sublist _ _)

/-! ## C1 and C2: greedy allocator machinery -/

theorem copy_overlap_left (r b : Rect) (l z : String) :
    rects_overlap (r.copy l z) b = rects_overlap r b := rfl

theorem copy_overlap_right (b r : Rect) (l z : String) :
    rects_overlap b (r.copy l z) = rects_overlap b r := rfl

theorem copy_touches (r : Rect) (cs : List Rect) (l z : String) :
    touches_corridor (r.copy l z) cs = touches_corridor r cs := rfl

theorem copy_area (r : Rect) (l z : String) :
    (r.copy l z).w * (r.copy l z).h = r.w * r.h := rfl

theorem acceptable_true_iff {placed blocking : List Rect} {cand : Rect} :
    acceptable placed blocking cand = true ↔
      (∀ b ∈ placed, rects_overlap cand b = false) ∧
      (∀ b ∈ blocking, rects_overlap cand b = false) ∧
      touches_corridor cand CORRIDORS = true := by
  simp only [acceptable, Bool.and_eq_true, Bool.not_eq_true',
    List.any_eq_false, List.mem_append, Bool.not_eq_true]
  constructor
  · rintro ⟨hsep, ht⟩
    exact ⟨fun b hb => hsep b (Or.inl hb), fun b hb => hsep b (Or.inr hb), ht⟩
  · rintro ⟨h1, h2, ht⟩
    exact ⟨fun b hb => hb.elim (h1 b) (h2 b), ht⟩

theorem tryZone_eq_some {placed blocking cands : List Rect} {zone : String}
    {r : Rect} (h : tryZone placed blocking cands zone = some r) :
    ∃ c ∈ cands, acceptable placed blocking c = true ∧
      r = c.copy (zoneLabel placed zone) zone := by
  unfold tryZone at h
  cases hf : cands.find? (acceptable placed blocking) with
  | none => rw [hf] at h; cases h
  | some c =>
    rw [hf] at h
    cases h
    exact ⟨c, List.mem_of_find?_eq_some hf, List.find?_some hf, rfl⟩

theorem tryPlaceItem_eq_some {cache : ℕ × String → List Rect}
    {blocking placed : List Rect} {area : ℕ} {r : Rect}
    (h : tryPlaceItem cache blocking placed area = some r) :
    ∃ z c, (z = "A" ∨ z = "B") ∧ c ∈ cache (area, z) ∧
      acceptable placed blocking c = true ∧
      r = c.copy (zoneLabel placed z) z := by
  unfold tryPlaceItem at h
  cases hA : tryZone placed blocking (cache (area, "A")) "A" with
  | some r0 =>
    rw [hA] at h
    cases h
    obtain ⟨c, hc, hacc, hr⟩ := tryZone_eq_some hA
    exact ⟨"A", c, Or.inl rfl, hc, hacc, hr⟩
  | none =>
    rw [hA] at h
    obtain ⟨c, hc, hacc, hr⟩ := tryZone_eq_some h
    exact ⟨"B", c, Or.inr rfl, hc, hacc, hr⟩

theorem greedyGo_invariant (cache : ℕ × String → List Rect)
    (blocking : List Rect) :
    ∀ (order : List ℕ) (placed : List Rect) (skipped : List ℕ),
      placed.Pairwise (fun a b => rects_overlap a b = false) →
      (∀ p ∈ placed, ∀ b ∈ blocking, rects_overlap p b = false) →
      (∀ p ∈ placed, touches_corridor p CORRIDORS = true) →
      ((greedyGo cache blocking order placed skipped).1.Pairwise
          (fun a b => rects_overlap a b = false) ∧
        (∀ p ∈ (greedyGo cache blocking order placed skipped).1,
          ∀ b ∈ blocking, rects_overlap p b = false) ∧
        (∀ p ∈ (greedyGo cache blocking order placed skipped).1,
          touches_corridor p CORRIDORS = true)) := by
  intro order
  induction order with
  | nil => intro placed skipped h1 h2 h3; exact ⟨h1, h2, h3⟩
  | cons area rest ih =>
    intro placed skipped h1 h2 h3
    cases htry : tryPlaceItem cache blocking placed area with
    | none =>
      simp only [greedyGo, htry]
      exact ih placed _ h1 h2 h3
    | some r =>
      simp only [greedyGo, htry]
      obtain ⟨z, c, -, -, hacc, hr⟩ := tryPlaceItem_eq_some htry
      obtain ⟨hplaced, hblocking, htouch⟩ := acceptable_true_iff.mp hacc
      apply ih
      · rw [List.pairwise_append]
        refine ⟨h1, List.pairwise_singleton _ _, ?_⟩
        intro a ha b hb
        rw [List.mem_singleton] at hb
        subst hb
        rw [hr, copy_overlap_right, rects_overlap_comm]
        exact hplaced a ha
      · intro p hp b hb
        rcases List.mem_append.mp hp with hp | hp
        · exact h2 p hp b hb
        · rw [List.mem_singleton] at hp
          subst hp
          rw [hr, copy_overlap_left]
          exact hblocking b hb
      · intro p hp
        rcases List.mem_append.mp hp with hp | hp
        · exact h3 p hp
        · rw [List.mem_singleton] at hp
          subst hp
          rw [hr, copy_touches]
          exact htouch

/-- Claim C1: for every placement order, candidate cache and blocking
list, the placed rects returned by greedy_place_with_skips are pairwise
non-overlapping, overlap no blocking rect, and each touches a corridor
of the full corridor set — each was accepted only after passing exactly
these checks. -/
theorem greedy_place_invariants (order : List ℕ)
    (cache : ℕ × String → List Rect) (blocking : List Rect) :
    (greedy_place_with_skips order cache blocking).1.Pairwise
      (fun a b => rects_overlap a b = false) ∧
    (greedy_place_with_skips order cache blocking).1.all
      (fun p => blocking.all (fun b => !(rects_overlap p b))) = true ∧
    (greedy_place_with_skips order cache blocking).1.all
      (fun p => touches_corridor p CORRIDORS) = true := by
  have h := greedyGo_invariant cache blocking order [] []
    List.Pairwise.nil (by simp) (by simp)
  refine ⟨h.1, ?_, ?_⟩
  · rw [List.all_eq_true]
    intro p hp
    rw [List.all_eq_true]
    intro b hb
    rw [Bool.not_eq_true']
    exact h.2.1 p hp b hb
  · rw [List.all_eq_true]
    intro p hp
    exact h.2.2 p hp

theorem countArea_append (l1 l2 : List Rect) (s : ℕ) :
    countArea (l1 ++ l2) s = countArea l1 s + countArea l2 s := by
  simp [countArea, List.filter_append]

theorem countNat_append (l1 l2 : List ℕ) (s : ℕ) :
    countNat (l1 ++ l2) s = countNat l1 s + countNat l2 s := by
  simp [countNat, List.filter_append]

theorem greedyGo_length (cache : ℕ × String → List Rect)
    (blocking : List Rect) :
    ∀ (order : List ℕ) (placed : List Rect) (skipped : List ℕ),
      (greedyGo cache blocking order placed skipped).1.length +
        (greedyGo cache blocking order placed skipped).2.length =
        placed.length + skipped.length + order.length := by
  intro order
  induction order with
  | nil => intro placed skipped; simp [greedyGo]
  | cons area rest ih =>
    intro placed skipped
    cases htry : tryPlaceItem cache blocking placed area with
    | none =>
      simp only [greedyGo, htry]
      rw [ih]
      simp
      omega
    | some r =>
      simp only [greedyGo, htry]
      rw [ih]
      simp
      omega

theorem greedyGo_counts (cache : ℕ × String → List Rect)
    (blocking : List Rect)
    (hc : ∀ a z, ∀ c ∈ cache (a, z), c.w * c.h = (a : ℚ)) (s : ℕ) :
    ∀ (order : List ℕ) (placed : List Rect) (skipped : List ℕ),
      countArea (greedyGo cache blocking order placed skipped).1 s +
        countNat (greedyGo cache blocking order placed skipped).2 s =
        countArea placed s + countNat skipped s + countNat order s := by
  intro order
  induction order with
  | nil => intro placed skipped; simp [greedyGo, countNat]
  | cons area rest ih =>
    intro placed skipped
    have hhead : countNat (area :: rest) s =
        (if area = s then 1 else 0) + countNat rest s := by
      by_cases hs : area = s <;> (simp [countNat, List.filter_cons, hs]; try omega)
    cases htry : tryPlaceItem cache blocking placed area with
    | none =>
      simp only [greedyGo, htry]
      rw [ih, countNat_append, hhead]
      have : countNat [area] s = if area = s then 1 else 0 := by
        by_cases hs : area = s <;> simp [countNat, hs]
      rw [this]
      omega
    | some r =>
      simp only [greedyGo, htry]
      rw [ih, countArea_append, hhead]
      obtain ⟨z, c, -, hcm, -, hr⟩ := tryPlaceItem_eq_some htry
      have harea : r.w * r.h = (area : ℚ) := by
        rw [hr, copy_area]
        exact hc area z c hcm
      have : countArea [r] s = if area = s then 1 else 0 := by
        by_cases hs : area = s
        · simp [countArea, harea, hs]
        · have : ¬ (r.w * r.h = (s : ℚ)) := by
            rw [harea]
            exact_mod_cast fun hq => hs (Nat.cast_injective hq)
          simp [countArea, this, hs]
      rw [this]
      omega

/-- Claim C2 (amended): for every placement order, blocking list and
candidate cache whose entry for each (area, zone) holds only rects of
exact area equal to that area — as the caches generate_candidates
builds do — the allocator returns placed and skipped lists with
len placed + len skipped = len order, and for every size the placed
count by area plus the skipped count equals the count in the order. -/
theorem greedy_inventory_conservation (order : List ℕ)
    (cache : ℕ × String → List Rect) (blocking : List Rect) (s : ℕ)
    (hc : ∀ a z, ∀ c ∈ cache (a, z), c.w * c.h = (a : ℚ)) :
    (greedy_place_with_skips order cache blocking).1.length +
      (greedy_place_with_skips order cache blocking).2.length = order.length ∧
    countArea (greedy_place_with_skips order cache blocking).1 s +
      countNat (greedy_place_with_skips order cache blocking).2 s =
      countNat order s := by
  constructor
  · have h := greedyGo_length cache blocking order [] []
    simpa [greedy_place_with_skips] using h
  · have h := greedyGo_counts cache blocking hc s order [] []
    simpa [greedy_place_with_skips, countArea, countNat] using h

/-- Claim C2, counterexample: with the cache whose (12, A) entry is a
1 by 1 rect, the allocator places that rect for the size-12 item, so
the conservation by area fails at size 12 although the cache has an
entry for every (area, zone) pair of the order. -/
theorem greedy_inventory_conservation_cex :
    ¬ ((greedy_place_with_skips [12] areaMismatchCache []).1.length +
        (greedy_place_with_skips [12] areaMismatchCache []).2.length =
        ([12] : List ℕ).length ∧
      ∀ s : ℕ,
        countArea (greedy_place_with_skips [12] areaMismatchCache []).1 s +
          countNat (greedy_place_with_skips [12] areaMismatchCache []).2 s =
          countNat [12] s) := by
  rintro ⟨-, h⟩
  have h12 := h 12
  revert h12
  decide

/-- Witness for C2: the amended theorem applied to the empty cache and
the one-item order [12]. -/
theorem greedy_inventory_conservation_witness :
    (∀ a z, ∀ c ∈ emptyCache (a, z), c.w * c.h = (a : ℚ)) ∧
    ((greedy_place_with_skips [12] emptyCache []).1.length +
      (greedy_place_with_skips [12] emptyCache []).2.length =
      ([12] : List ℕ).length ∧
    countArea (greedy_place_with_skips [12] emptyCache []).1 12 +
      countNat (greedy_place_with_skips [12] emptyCache []).2 12 =
      countNat [12] 12) :=
  have hc : ∀ a z, ∀ c ∈ emptyCache (a, z), c.w * c.h = (a : ℚ) :=
    fun _ _ c hmem => absurd hmem (List.not_mem_nil c)
  ⟨hc, greedy_inventory_conservation [12] emptyCache [] 12 hc⟩

/-! ## C6: error taxonomy -/

theorem addBooth_error_iff (blocking placed : List Rect) (bid : ℕ)
    (x y w h : ℚ) (zone : String) :
    (∃ msg, addBooth blocking placed bid x y w h zone = Except.error msg) ↔
      ((blocking ++ placed).any
          (fun b => rects_overlap (outerRect bid x y w h zone) b) = true ∨
        touches_corridor (outerRect bid x y w h zone) MAIN_CORRIDORS = false) := by
  simp only [addBooth]
  split_ifs with h1 h2
  · exact iff_of_true ⟨_, rfl⟩ (Or.inl h1)
  · exact iff_of_true ⟨_, rfl⟩ (Or.inr (by simpa using h2))
  · apply iff_of_false
    · rintro ⟨msg, hmsg⟩
      cases hmsg
    · rintro (hA | hT)
      · exact h1 hA
      · simp only [Bool.not_eq_true', Bool.not_eq_false] at h2
        simp [h2] at hT

theorem main_candidate_check_error_iff (areas : List ℕ) :
    (∃ msg, main_candidate_check areas = Except.error msg) ↔
      ∃ a ∈ areas,
        generate_candidates a "A" = [] ∨ generate_candidates a "B" = [] := by
  induction areas with
  | nil => simp [main_candidate_check]
  | cons a rest ih =>
    simp only [main_candidate_check]
    split_ifs with hA hB
    · refine iff_of_true ⟨_, rfl⟩ ⟨a, List.mem_cons_self a rest, Or.inl hA⟩
    · refine iff_of_true ⟨_, rfl⟩ ⟨a, List.mem_cons_self a rest, Or.inr hB⟩
    · rw [ih]
      constructor
      · rintro ⟨c, hc, hcase⟩
        exact ⟨c, List.mem_cons_of_mem a hc, hcase⟩
      · rintro ⟨c, hc, hcase⟩
        rcases List.mem_cons.mp hc with rfl | hc
        · rcases hcase with hh | hh
          · exact absurd hh hA
          · exact absurd hh hB
        · exact ⟨c, hc, hcase⟩

theorem greedyGo_skip_eq (cache : ℕ × String → List Rect)
    (blocking : List Rect) (area : ℕ) (rest : List ℕ)
    (placed : List Rect) (skipped : List ℕ)
    (hA : ∀ c ∈ cache (area, "A"), acceptable placed blocking c = false)
    (hB : ∀ c ∈ cache (area, "B"), acceptable placed blocking c = false) :
    greedyGo cache blocking (area :: rest) placed skipped =
      greedyGo cache blocking rest placed (skipped ++ [area]) := by
  have h1 : (cache (area, "A")).find? (acceptable placed blocking) = none :=
    List.find?_eq_none.mpr (fun c hc => by simp [hA c hc])
  have h2 : (cache (area, "B")).find? (acceptable placed blocking) = none :=
    List.find?_eq_none.mpr (fun c hc => by simp [hB c hc])
  have hnone : tryPlaceItem cache blocking placed area = none := by
    unfold tryPlaceItem tryZone
    rw [h1, h2]
  simp only [greedyGo, hnone]

/-- Claim C6: the engine raises exactly in the fatal cases.  The add
closure of layout_outer_strips returns an error precisely when the new
rect overlaps the blocking set or misses main-corridor contact; the
cache-building loop of main returns an error precisely when some area
of the order has an empty candidate list for zone A or B; and an item
with no acceptable candidate in either zone never raises: the allocator
appends it to the skip list and continues with the rest. -/
theorem error_handling_characterization :
    (∀ (blocking placed : List Rect) (bid : ℕ) (x y w h : ℚ) (zone : String),
      (∃ msg, addBooth blocking placed bid x y w h zone = Except.error msg) ↔
        ((blocking ++ placed).any
            (fun b => rects_overlap (outerRect bid x y w h zone) b) = true ∨
          touches_corridor (outerRect bid x y w h zone) MAIN_CORRIDORS = false)) ∧
    (∀ areas : List ℕ,
      (∃ msg, main_candidate_check areas = Except.error msg) ↔
        ∃ a ∈ areas,
          generate_candidates a "A" = [] ∨ generate_candidates a "B" = []) ∧
    (∀ (cache : ℕ × String → List Rect) (blocking : List Rect) (area : ℕ)
        (rest : List ℕ) (placed : List Rect) (skipped : List ℕ),
      (∀ c ∈ cache (area, "A"), acceptable placed blocking c = false) →
      (∀ c ∈ cache (area, "B"), acceptable placed blocking c = false) →
      greedyGo cache blocking (area :: rest) placed skipped =
        greedyGo cache blocking rest placed (skipped ++ [area])) :=
  ⟨addBooth_error_iff, main_candidate_check_error_iff, greedyGo_skip_eq⟩

/-- Witness for C6: with an empty cache, a single size-200 item is
skipped, not raised — the end-to-end scenario of an inventory item with
zero acceptable candidates. -/
theorem error_handling_characterization_witness :
    (∀ c ∈ emptyCache (200, "A"), acceptable [] [] c = false) ∧
    (∀ c ∈ emptyCache (200, "B"), acceptable [] [] c = false) ∧
    greedyGo emptyCache [] [200] [] [] =
      greedyGo emptyCache [] [] [] ([] ++ [200]) :=
  have hA : ∀ c ∈ emptyCache (200, "A"), acceptable [] [] c = false :=
    fun c hmem => absurd hmem (List.not_mem_nil c)
  have hB : ∀ c ∈ emptyCache (200, "B"), acceptable [] [] c = false :=
    fun c hmem => absurd hmem (List.not_mem_nil c)
  ⟨hA, hB, error_handling_characterization.2.2 emptyCache [] 200 [] [] [] hA hB⟩

/-! ## C9: the validator inventory disagrees with the generator -/

/-- Claim C9: the validator target table and the generator inventory
disagree at sizes 200 (1 vs 2), 100 (2 vs 3), 80 (2 vs 3) and 48
(4 vs 5); hence any booth list whose per-size counts realize the full
generator inventory fails the inventory check: at least one mismatch
finding is recorded and validation returns failure. -/
theorem validator_inventory_mismatch (booths : List PRect)
    (hc : ∀ s ∈ INVENTORY.map Prod.fst,
      countFoundArea booths s = dictGet INVENTORY s) :
    (dictGet required_inventory 200 = 1 ∧ dictGet INVENTORY 200 = 2 ∧
     dictGet required_inventory 100 = 2 ∧ dictGet INVENTORY 100 = 3 ∧
     dictGet required_inventory 80 = 2 ∧ dictGet INVENTORY 80 = 3 ∧
     dictGet required_inventory 48 = 4 ∧ dictGet INVENTORY 48 = 5) ∧
    ((inventoryErrors booths).isEmpty = false ∧
      validate_core booths = false) := by
  have h200 : countFoundArea booths 200 = 2 :=
    (hc 200 (by decide)).trans (by decide)
  have hne : inventoryErrors booths ≠ [] := by
    unfold inventoryErrors required_inventory
    rw [List.filterMap_cons]
    simp [h200]
  refine ⟨by decide, List.isEmpty_eq_false.mpr hne, ?_⟩
  unfold validate_core
  rw [List.isEmpty_eq_false]
  intro happ
  exact hne (List.append_eq_nil.mp happ).2

/-- Witness for C9: a concrete booth list realizing the generator
inventory counts by area (size by 1 rects). -/
theorem validator_inventory_mismatch_witness :
    (∀ s ∈ INVENTORY.map Prod.fst,
      countFoundArea generatorCountBooths s = dictGet INVENTORY s) ∧
    ((inventoryErrors generatorCountBooths).isEmpty = false ∧
      validate_core generatorCountBooths = false) :=
  have hc : ∀ s ∈ INVENTORY.map Prod.fst,
      countFoundArea generatorCountBooths s = dictGet INVENTORY s := by decide
  ⟨hc, (validator_inventory_mismatch generatorCountBooths hc).2⟩

/-! ## C10: the corridor filter misses spur and tertiary corridors -/

set_option maxHeartbeats 1000000 in
/-- Claim C10: parse_svg_rects keeps a rect iff it is neither
hall-shaped (within 0.1 of 80 by 40) nor corridor-shaped (width within
0.1 of 4 with height above 10, or height within 0.1 of 4 with width
above 10); the 3 by 26 spur corridors and the 80 by 3 tertiary corridor
match neither filter, so they are kept as booths, and the aspect check
of validate_plan records an aspect-ratio finding for each. -/
theorem parse_filter_misses_secondary_corridors :
    (∀ (rs : List PRect) (r : PRect),
      r ∈ parse_svg_rects rs ↔
        r ∈ rs ∧ ¬(|r.w - 80| < 1/10 ∧ |r.h - 40| < 1/10) ∧
          ¬((|r.w - 4| < 1/10 ∧ r.h > 10) ∨ (|r.h - 4| < 1/10 ∧ r.w > 10))) ∧
    parse_svg_rects [spurAParsed, spurBParsed, tertiaryParsed] =
      [spurAParsed, spurBParsed, tertiaryParsed] ∧
    boothErrors spurAParsed = [VErr.aspect (45/2) 7] ∧
    boothErrors spurBParsed = [VErr.aspect (125/2) 7] ∧
    boothErrors tertiaryParsed = [VErr.aspect 0 18] := by
  refine ⟨?_, by decide, by decide, by decide, by decide⟩
  intro rs r
  simp only [parse_svg_rects, List.mem_filter, hall_filter, corridor_filter,
    Bool.and_eq_true, Bool.not_eq_true', Bool.and_eq_false_iff,
    Bool.or_eq_false_iff, decide_eq_false_iff_not, decide_eq_true_eq]
  tauto

/-- Witness for C10: the filter characterization applied to the parsed
spur_A rect alone. -/
theorem parse_filter_misses_secondary_corridors_witness :
    spurAParsed ∈ parse_svg_rects [spurAParsed] :=
  (parse_filter_misses_secondary_corridors.1 [spurAParsed] spurAParsed).mpr
    ⟨by decide, by decide, by decide⟩

end

end Plan
